import Mathlib

/-!
A verification development for the routing-instability detector
(`scripts/find_routing_instabilities.py`): the route-signature extractor,
the spatial pairing loop, the pairwise classification cascade and the
severity sort are embedded shallowly and the documented properties are
settled against that embedding.

Modelling conventions:
* JSON numbers (coordinates, distances, durations, thresholds) are exact
  rationals; values produced by trigonometry (bearings, haversine
  distances) live in the real numbers, so the functions touching them are
  marked noncomputable.
* The routing provider is modelled by the response value it hands back:
  a network failure is the absence of a response.
* The scipy KD-tree ball query is modelled by its specification: all
  indices whose scaled planar Euclidean distance from the query point is
  at most the radius.  The enumeration order of those indices is not
  fixed by scipy, so the pairing loop is stated over an arbitrary
  neighbour enumeration and instantiated with the radius query.
-/

namespace KVFD

/-- One maneuver step of a provider route.  GraphHopper carries the road
name under the key `street_name`, OSRM under `name`; the extractor reads
`step.get("street_name", step.get("name", ""))`, and `step.get("text", "")`
for the instruction text.  An absent key is `none`; an absent `text`
is the empty string. -/
structure Step where
  street_name : Option String
  name : Option String
  text : String
deriving Repr, DecidableEq

/-- One element of the `paths` array of a GraphHopper response:
`points.coordinates` (a list of [lng, lat] vertices), `distance` (meters),
`time` (milliseconds) and `instructions`. -/
structure GHPath where
  points_coordinates : List (ℚ × ℚ)
  distance : ℚ
  time : ℚ
  instructions : List Step
deriving Repr, DecidableEq

/-- A GraphHopper HTTP reply: the status code and the decoded `paths`
array.  A payload without a usable `paths` array is modelled by
`paths = []` (Python treats a missing or empty list alike as falsy). -/
structure GHResponse where
  status_code : ℤ
  paths : List GHPath
deriving Repr, DecidableEq

/-- The common route format `get_route_graphhopper` converts a path into:
`geometry.coordinates`, `distance` (meters), `duration` (seconds) and the
steps of the single leg (`legs[0]["steps"]`), flattened here into one
record. -/
structure Route where
  geometry_coordinates : List (ℚ × ℚ)
  distance : ℚ
  duration : ℚ
  steps : List Step
deriving Repr, DecidableEq

/-- `get_route_graphhopper`: `None` on a network error (the request
raised), a non-200 status, or a reply without paths; otherwise the first
path converted to the common format (`time` is milliseconds, divided by
1000 into seconds). -/
def get_route_graphhopper (resp : Option GHResponse) : Option Route :=
  match resp with
  | none => none
  | some r =>
    if r.status_code = 200 then
      match r.paths with
      | [] => none
      | path :: _ =>
        some { geometry_coordinates := path.points_coordinates,
               distance := path.distance,
               duration := path.time / 1000,
               steps := path.instructions }
    else none

/-- The `RouteSignature` dataclass.  `location` is (lng, lat). -/
structure RouteSignature where
  address_id : String
  address : String
  location : ℚ × ℚ
  initial_bearing : ℝ
  first_road : String
  route_roads : List String
  route_geometry : List (ℚ × ℚ)
  total_distance : ℚ
  total_duration : ℚ
  has_uturn : Bool
  success : Bool
  error : Option String

/-- The `InstabilityZone` dataclass. -/
structure InstabilityZone where
  address1 : RouteSignature
  address2 : RouteSignature
  distance_apart : ℝ
  bearing_difference : ℝ
  route_overlap : ℚ
  route_distance_ratio : ℚ
  severity : String
  reason : String

/-- Degrees to radians, `math.radians`. -/
noncomputable def radians (x : ℝ) : ℝ := x * (Real.pi / 180)

/-- Radians to degrees, `math.degrees`. -/
noncomputable def degrees (x : ℝ) : ℝ := x * (180 / Real.pi)

/-- The two-argument arctangent, `math.atan2 y x`: the angle of the point
(x, y) in (-pi, pi]. -/
noncomputable def atan2 (y x : ℝ) : ℝ :=
  if 0 < x then Real.arctan (y / x)
  else if x < 0 then
    (if 0 ≤ y then Real.arctan (y / x) + Real.pi else Real.arctan (y / x) - Real.pi)
  else
    (if 0 < y then Real.pi / 2 else if y < 0 then -(Real.pi / 2) else 0)

/-- The Python float modulo `a % b` for b > 0: `a - b * ⌊a / b⌋`. -/
noncomputable def pymod (a b : ℝ) : ℝ := a - b * ⌊a / b⌋

/-- `calculate_bearing`: initial bearing from point 1 to point 2 in
degrees, normalized into [0, 360) by `(bearing + 360) % 360`. -/
noncomputable def calculate_bearing (lat1 lng1 lat2 lng2 : ℝ) : ℝ :=
  let lat1r := radians lat1
  let lng1r := radians lng1
  let lat2r := radians lat2
  let lng2r := radians lng2
  let d_lng := lng2r - lng1r
  let x := Real.sin d_lng * Real.cos lat2r
  let y := Real.cos lat1r * Real.sin lat2r -
    Real.sin lat1r * Real.cos lat2r * Real.cos d_lng
  pymod (degrees (atan2 x y) + 360) 360

/-- `haversine_distance`: great-circle distance in meters between
(lat1, lng1) and (lat2, lng2), Earth radius 6371000 m. -/
noncomputable def haversine_distance (lat1 lng1 lat2 lng2 : ℝ) : ℝ :=
  let lat1r := radians lat1
  let lng1r := radians lng1
  let lat2r := radians lat2
  let lng2r := radians lng2
  let dlat := lat2r - lat1r
  let dlng := lng2r - lng1r
  let a := Real.sin (dlat / 2) ^ 2 +
    Real.cos lat1r * Real.cos lat2r * Real.sin (dlng / 2) ^ 2
  let c := 2 * atan2 (Real.sqrt a) (Real.sqrt (1 - a))
  6371000 * c

/-- Whether `pat` occurs as a contiguous block of `l`: the Python
substring test `pat in text` on the underlying characters. -/
def containsSeq (pat : List Char) : List Char → Bool
  | [] => pat == []
  | c :: t => pat.isPrefixOf (c :: t) || containsSeq pat t

/-- The U-turn test of the extractor: `"u-turn" in step.get("text", "").lower()`. -/
def textHasUturn (text : String) : Bool :=
  containsSeq "u-turn".data text.toLower.data

/-- The road name a step carries:
`step.get("street_name", step.get("name", ""))`. -/
def stepRoadName (step : Step) : String :=
  step.street_name.getD (step.name.getD "")

/-- One iteration of the step walk of `extract_route_signature`, acting on
the state (first_road, route_roads, has_uturn):
check the instruction text for a U-turn, append the road name when it is
nonempty and differs from the last collected one, and set `first_road`
the first time a road name appears while at most two names are
collected. -/
def roadsStep (acc : String × List String × Bool) (step : Step) :
    String × List String × Bool :=
  let road_name := stepRoadName step
  let has_uturn := acc.2.2 || textHasUturn step.text
  let route_roads :=
    if road_name ≠ "" ∧ (acc.2.1 = [] ∨ acc.2.1.getLast? ≠ some road_name) then
      acc.2.1 ++ [road_name]
    else acc.2.1
  let first_road :=
    if acc.1 = "" ∧ road_name ≠ "" ∧ route_roads.length ≤ 2 then road_name
    else acc.1
  (first_road, route_roads, has_uturn)

/-- `extract_route_signature`, specialized to the GraphHopper engine (the
default): issue the route request (modelled by its reply `resp`) and
produce exactly one signature.  On failure: a signature with
`success = False` and the error message.  On success: the initial bearing
from the first two geometry vertices (0 when fewer than two), and the
step walk collecting `first_road`, `route_roads` and `has_uturn`. -/
noncomputable def extract_route_signature (address_id address : String)
    (location : ℚ × ℚ) (resp : Option GHResponse) : RouteSignature :=
  match get_route_graphhopper resp with
  | none =>
    { address_id := address_id, address := address, location := location,
      initial_bearing := 0, first_road := "", route_roads := [],
      route_geometry := [], total_distance := 0, total_duration := 0,
      has_uturn := false, success := false,
      error := some "Failed to get route" }
  | some route =>
    let geometry := route.geometry_coordinates
    let steps := route.steps
    let initial_bearing : ℝ :=
      match geometry with
      | p1 :: p2 :: _ => calculate_bearing p1.2 p1.1 p2.2 p2.1
      | _ => 0
    let walk := steps.foldl roadsStep ("", [], false)
    { address_id := address_id, address := address, location := location,
      initial_bearing := initial_bearing, first_road := walk.1,
      route_roads := walk.2.1, route_geometry := geometry,
      total_distance := route.distance, total_duration := route.duration,
      has_uturn := walk.2.2, success := true, error := none }

/-- `calculate_route_overlap`: the fraction of vertices of `route1`
having some vertex of `route2` within `threshold_m` meters (haversine);
0 when either geometry is empty.  The division is exact, so the result
is a rational (`matched` renders the Python variable `matches`, a Lean
keyword). -/
noncomputable def calculate_route_overlap (route1 route2 : List (ℚ × ℚ))
    (threshold_m : ℝ := 50) : ℚ :=
  if route1 = [] ∨ route2 = [] then 0
  else
    let matched := route1.countP fun p1 =>
      decide (∃ p2 ∈ route2,
        haversine_distance (p1.2 : ℝ) (p1.1 : ℝ) (p2.2 : ℝ) (p2.1 : ℝ) ≤ threshold_m)
    let total := route1.length
    if 0 < total then (matched : ℚ) / (total : ℚ) else 0

/-- The bearing comparison of `find_instabilities`:
`abs(b1 - b2)`, wrapped by `360 - diff` when the difference exceeds 180. -/
noncomputable def bearing_difference (b1 b2 : ℝ) : ℝ :=
  if 180 < |b1 - b2| then 360 - |b1 - b2| else |b1 - b2|

/-- The distance comparison of `find_instabilities`:
`max(d1, d2) / max(min(d1, d2), 1)`. -/
def route_distance_ratio (d1 d2 : ℚ) : ℚ :=
  max d1 d2 / max (min d1 d2) 1

/-- Round half to even, as Python `round` and string formatting do, on an
exact rational. -/
def pyRoundQ (q : ℚ) : ℤ :=
  let n := ⌊q⌋
  if 1 / 2 < q - n then n + 1
  else if q - n < 1 / 2 then n
  else if 2 ∣ n then n else n + 1

/-- Round half to even on a real number, for the formatted pieces of the
reason strings. -/
noncomputable def pyRoundR (x : ℝ) : ℤ :=
  let n := ⌊x⌋
  if 1 / 2 < x - n then n + 1
  else if x - n < 1 / 2 then n
  else if 2 ∣ n then n else n + 1

/-- The f-string field `{x:.0f}`: the value rounded to an integer. -/
noncomputable def pyFmtF0 (x : ℝ) : String := toString (pyRoundR x)

/-- The f-string field `{q:.1f}`: the value rounded to one decimal
place. -/
def pyFmtF1 (q : ℚ) : String :=
  let t := pyRoundQ (q * 10)
  if t < 0 then
    "-" ++ toString ((-t) / 10) ++ "." ++ toString ((-t) % 10)
  else
    toString (t / 10) ++ "." ++ toString (t % 10)

/-- The per-pair body of `find_instabilities`: the comparison metrics and
the first-match-wins rule cascade.  `some zone` when a rule fires, `none`
when none does. -/
noncomputable def evaluate_pair (sig1 sig2 : RouteSignature)
    (bearing_threshold : ℝ) (overlap_threshold : ℚ) : Option InstabilityZone :=
  let dist := haversine_distance (sig1.location.2 : ℝ) (sig1.location.1 : ℝ)
    (sig2.location.2 : ℝ) (sig2.location.1 : ℝ)
  let bearing_diff := bearing_difference sig1.initial_bearing sig2.initial_bearing
  let overlap := calculate_route_overlap sig1.route_geometry sig2.route_geometry
  let distance_ratio := route_distance_ratio sig1.total_distance sig2.total_distance
  let roads_differ := sig1.route_roads.take 3 ≠ sig2.route_roads.take 3
  let uturn_mismatch := sig1.has_uturn ≠ sig2.has_uturn
  let zone := fun (severity reason : String) =>
    some { address1 := sig1, address2 := sig2, distance_apart := dist,
           bearing_difference := bearing_diff, route_overlap := overlap,
           route_distance_ratio := distance_ratio,
           severity := severity, reason := reason }
  if bearing_threshold ≤ bearing_diff then
    zone (if 150 ≤ bearing_diff then "critical" else "high")
      ("Opposite initial direction (" ++ pyFmtF0 bearing_diff ++ "° diff)")
  else if uturn_mismatch then
    zone (if 13 / 10 < distance_ratio then "critical" else "high")
      ("U-turn route mismatch (one has U-turn, " ++ pyFmtF1 distance_ratio ++ "x longer)")
  else if roads_differ ∧ 12 / 10 < distance_ratio then
    zone (if 14 / 10 < distance_ratio then "high" else "medium")
      ("Different roads (" ++ pyFmtF1 distance_ratio ++ "x distance diff)")
  else if 45 ≤ bearing_diff ∧ overlap < 4 / 10 then
    zone "high" ("Bearing diff " ++ pyFmtF0 bearing_diff ++ "° + low overlap")
  else if 30 ≤ bearing_diff ∧ overlap < overlap_threshold then
    zone "medium" ("Bearing diff " ++ pyFmtF0 bearing_diff ++ "° + low overlap")
  else none

/-- A signature used when a neighbour index falls outside the signature
list.  The real KD-tree only returns valid indices, and a failed default
is skipped, so semantics on valid inputs are unchanged. -/
noncomputable def dfltSig : RouteSignature :=
  { address_id := "", address := "", location := (0, 0),
    initial_bearing := 0, first_road := "", route_roads := [],
    route_geometry := [], total_distance := 0, total_duration := 0,
    has_uturn := false, success := false, error := none }

/-- The inner loop body of `find_instabilities` for outer index `i` and
neighbour index `j`, acting on the state (checked pair keys, collected
triples): skip when `i >= j`, skip an already-checked pair key, mark the
key checked, skip a failed second signature, and otherwise record the
evaluated pair. -/
noncomputable def innerStep (sigs : List RouteSignature)
    (bearing_threshold : ℝ) (overlap_threshold : ℚ) (i : ℕ)
    (st : List (ℕ × ℕ) × List (ℕ × ℕ × InstabilityZone)) (j : ℕ) :
    List (ℕ × ℕ) × List (ℕ × ℕ × InstabilityZone) :=
  if j ≤ i then st
  else
    let pair_key := (min i j, max i j)
    if pair_key ∈ st.1 then st
    else
      let checked := pair_key :: st.1
      let sig2 := sigs.getD j dfltSig
      if sig2.success = false then (checked, st.2)
      else
        match evaluate_pair (sigs.getD i dfltSig) sig2
            bearing_threshold overlap_threshold with
        | none => (checked, st.2)
        | some z => (checked, st.2 ++ [(i, j, z)])

/-- The outer loop body of `find_instabilities`: skip a failed first
signature, otherwise run the inner loop over the enumerated neighbour
indices of `i`. -/
noncomputable def outerStep (sigs : List RouteSignature) (query : ℕ → List ℕ)
    (bearing_threshold : ℝ) (overlap_threshold : ℚ)
    (st : List (ℕ × ℕ) × List (ℕ × ℕ × InstabilityZone)) (i : ℕ) :
    List (ℕ × ℕ) × List (ℕ × ℕ × InstabilityZone) :=
  if (sigs.getD i dfltSig).success = false then st
  else (query i).foldl (innerStep sigs bearing_threshold overlap_threshold i) st

/-- The pairing loop of `find_instabilities`, instrumented with the loop
indices: the list of evaluated pairs that produced a zone, in emission
order, for an arbitrary neighbour enumeration `query`. -/
noncomputable def findInstabilitiesPairs (sigs : List RouteSignature)
    (query : ℕ → List ℕ) (bearing_threshold : ℝ) (overlap_threshold : ℚ) :
    List (ℕ × ℕ × InstabilityZone) :=
  ((List.range sigs.length).foldl
    (outerStep sigs query bearing_threshold overlap_threshold) ([], [])).2

/-- The squared planar distance between two (lng, lat) coordinates after
the fixed local scaling of `find_instabilities` (longitude times 85000,
latitude times 111000 meters per degree). -/
def sqScaledDist (p q : ℚ × ℚ) : ℚ :=
  (85000 * (p.1 - q.1)) ^ 2 + (111000 * (p.2 - q.2)) ^ 2

/-- The KD-tree ball query `tree.query_ball_point(scaled_coords[i], r)`:
all indices whose scaled Euclidean distance from point `i` is at most
`r`, stated on squares to stay in the rationals. -/
def kdQuery (coords : List (ℚ × ℚ)) (max_neighbor_distance : ℚ) (i : ℕ) :
    List ℕ :=
  (List.range coords.length).filter fun j =>
    decide (0 ≤ max_neighbor_distance ∧
      sqScaledDist (coords.getD i (0, 0)) (coords.getD j (0, 0)) ≤
        max_neighbor_distance ^ 2)

/-- `find_instabilities`: the emitted instability zones, in emission
order, with the KD-tree radius query as the neighbour enumeration. -/
noncomputable def find_instabilities (sigs : List RouteSignature)
    (coords : List (ℚ × ℚ)) (bearing_threshold : ℝ := 90)
    (overlap_threshold : ℚ := 1 / 2) (max_neighbor_distance : ℚ := 100) :
    List InstabilityZone :=
  (findInstabilitiesPairs sigs (kdQuery coords max_neighbor_distance)
    bearing_threshold overlap_threshold).map fun t => t.2.2

/-- The severity rank of the final sort of `main`:
`{"critical": 0, "high": 1, "medium": 2}` (the classifier emits no other
severity, so the catch-all branch is unreachable on its output). -/
def severity_order (s : String) : ℕ :=
  if s = "critical" then 0 else if s = "high" then 1
  else if s = "medium" then 2 else 3

/-- The sort key comparison of
`instabilities.sort(key=lambda x: (severity_order[x.severity], -x.bearing_difference))`:
ascending severity rank, then descending bearing difference. -/
noncomputable def zoneLE (z1 z2 : InstabilityZone) : Bool :=
  decide (severity_order z1.severity < severity_order z2.severity ∨
    (severity_order z1.severity = severity_order z2.severity ∧
      z2.bearing_difference ≤ z1.bearing_difference))

/-- The final sort of `main` over the emitted zones (a stable sort by the
key above); the exporter then serializes the zones in this order. -/
noncomputable def sortInstabilities (zs : List InstabilityZone) :
    List InstabilityZone :=
  zs.mergeSort zoneLE

/-- A successful signature with the given bearing, route distance and
U-turn flag, with empty roads and geometry, for concrete instances. -/
noncomputable def testSig (b : ℝ) (d : ℚ) (ut : Bool) : RouteSignature :=
  { address_id := "t", address := "t", location := (0, 0),
    initial_bearing := b, first_road := "", route_roads := [],
    route_geometry := [], total_distance := d, total_duration := 0,
    has_uturn := ut, success := true, error := none }

/-- The invariant of the pairing loop state: every collected triple has
its first index below its second, refers to two successful signatures,
stores exactly those signatures in its zone, and has its index pair
recorded in the checked set; and no index pair is collected twice. -/
def PairInv (sigs : List RouteSignature)
    (st : List (ℕ × ℕ) × List (ℕ × ℕ × InstabilityZone)) : Prop :=
  (∀ t ∈ st.2, t.1 < t.2.1 ∧
    (sigs.getD t.1 dfltSig).success = true ∧
    (sigs.getD t.2.1 dfltSig).success = true ∧
    t.2.2.address1 = sigs.getD t.1 dfltSig ∧
    t.2.2.address2 = sigs.getD t.2.1 dfltSig) ∧
  (st.2.map fun t => (t.1, t.2.1)).Nodup ∧
  (∀ t ∈ st.2, (t.1, t.2.1) ∈ st.1)

/-- The invariant of the step walk state of the extractor: no collected
road name is empty, `first_road` is the head of the collected names (or
empty when none is collected), and it is nonempty as soon as a name is
collected. -/
def RoadInv (st : String × List String × Bool) : Prop :=
  "" ∉ st.2.1 ∧ st.1 = st.2.1.headD "" ∧ (st.2.1 ≠ [] → st.1 ≠ "")

/-! ## Geometry lemmas -/

/-- The haversine distance of a point to itself vanishes. -/
theorem haversine_self (lat lng : ℝ) : haversine_distance lat lng lat lng = 0 := by
  simp [haversine_distance, atan2, Real.sqrt_one]

/-- The haversine distance is symmetric in its two points. -/
theorem haversine_comm (lat1 lng1 lat2 lng2 : ℝ) :
    haversine_distance lat1 lng1 lat2 lng2 = haversine_distance lat2 lng2 lat1 lng1 := by
  have h1 : ∀ x y : ℝ, Real.sin ((y - x) / 2) ^ 2 = Real.sin ((x - y) / 2) ^ 2 := by
    intro x y
    rw [show (y - x) / 2 = -((x - y) / 2) by ring, Real.sin_neg, neg_sq]
  have key : Real.sin ((radians lat2 - radians lat1) / 2) ^ 2 +
      Real.cos (radians lat1) * Real.cos (radians lat2) *
        Real.sin ((radians lng2 - radians lng1) / 2) ^ 2 =
      Real.sin ((radians lat1 - radians lat2) / 2) ^ 2 +
      Real.cos (radians lat2) * Real.cos (radians lat1) *
        Real.sin ((radians lng1 - radians lng2) / 2) ^ 2 := by
    rw [h1 (radians lat1) (radians lat2), h1 (radians lng1) (radians lng2)]
    ring
  simp only [haversine_distance]
  rw [key]

/-- The haversine distance between latitude-0 points 180 degrees of
longitude apart is half of the circumference of the Earth model. -/
theorem haversine_antipodal : haversine_distance 0 0 0 180 = 6371000 * Real.pi := by
  have h180 : radians 180 = Real.pi := by
    simp [radians]; ring
  simp only [haversine_distance, h180]
  norm_num [radians, atan2, Real.sin_pi_div_two, Real.sqrt_one]
  ring

/-- Every point of a nonempty geometry has itself within the 50 m
threshold, so the overlap of a geometry with itself is 1. -/
theorem overlap_self (A : List (ℚ × ℚ)) (hA : A ≠ []) :
    calculate_route_overlap A A 50 = 1 := by
  unfold calculate_route_overlap
  rw [if_neg (by simp [hA])]
  have hc : A.countP (fun p1 =>
      decide (∃ p2 ∈ A, haversine_distance (p1.2 : ℝ) (p1.1 : ℝ)
        (p2.2 : ℝ) (p2.1 : ℝ) ≤ 50)) = A.length := by
    rw [List.countP_eq_length]
    intro p1 hp1
    simp only [decide_eq_true_eq]
    exact ⟨p1, hp1, by rw [haversine_self]; norm_num⟩
  have hlen : 0 < A.length := List.length_pos.mpr hA
  simp only [hc, if_pos hlen]
  rw [div_self]
  exact_mod_cast hlen.ne'

/-- When every vertex of one geometry is strictly farther than the
threshold from every vertex of the other, the overlap is 0. -/
theorem overlap_far (A B : List (ℚ × ℚ))
    (hfar : ∀ p ∈ A, ∀ q ∈ B,
      ¬ haversine_distance (p.2 : ℝ) (p.1 : ℝ) (q.2 : ℝ) (q.1 : ℝ) ≤ 50) :
    calculate_route_overlap A B 50 = 0 := by
  unfold calculate_route_overlap
  by_cases hemp : A = [] ∨ B = []
  · rw [if_pos hemp]
  · rw [if_neg hemp]
    have hc : A.countP (fun p1 =>
        decide (∃ p2 ∈ B, haversine_distance (p1.2 : ℝ) (p1.1 : ℝ)
          (p2.2 : ℝ) (p2.1 : ℝ) ≤ 50)) = 0 := by
      rw [List.countP_eq_zero]
      intro p hp
      simp only [decide_eq_true_eq]
      rintro ⟨q, hq, hle⟩
      exact hfar p hp q hq hle
    simp [hc]

/-- C5: for every two points A and B, `haversine_distance(A, B)` equals
`haversine_distance(B, A)`, and for every point A,
`haversine_distance(A, A)` equals 0. -/
theorem claim5_haversine_symm_and_self_zero :
    (∀ lat1 lng1 lat2 lng2 : ℝ,
      haversine_distance lat1 lng1 lat2 lng2 =
        haversine_distance lat2 lng2 lat1 lng1) ∧
    (∀ lat lng : ℝ, haversine_distance lat lng lat lng = 0) :=
  ⟨haversine_comm, haversine_self⟩

/-- C8 counterexample: the claim quantifies over every route geometry,
but on the empty geometry `calculate_route_overlap` returns 0, not 1
(the guard for an empty input short-circuits before any comparison). -/
theorem claim8_empty_geometry_cex :
    ¬ calculate_route_overlap [] [] 50 = 1 := by
  simp [calculate_route_overlap]

/-- C8 (amended): for every nonempty route geometry A,
`calculate_route_overlap(A, A)` with the default 50 m threshold is 1.0
(on the empty geometry it is 0.0), and for every two geometries all of
whose vertices are more than 50 m apart the overlap is 0.0. -/
theorem claim8_route_overlap_bounds :
    (∀ A : List (ℚ × ℚ), A ≠ [] → calculate_route_overlap A A 50 = 1) ∧
    (∀ A B : List (ℚ × ℚ),
      (∀ p ∈ A, ∀ q ∈ B,
        ¬ haversine_distance (p.2 : ℝ) (p.1 : ℝ) (q.2 : ℝ) (q.1 : ℝ) ≤ 50) →
      calculate_route_overlap A B 50 = 0) :=
  ⟨overlap_self, overlap_far⟩

/-- C8 witness: both parts of the amended claim at concrete geometries,
a one-vertex route against itself and against a route half a world
away. -/
theorem claim8_route_overlap_witness :
    calculate_route_overlap [((0 : ℚ), (0 : ℚ))] [((0 : ℚ), (0 : ℚ))] 50 = 1 ∧
    calculate_route_overlap [((0 : ℚ), (0 : ℚ))] [((180 : ℚ), (0 : ℚ))] 50 = 0 := by
  constructor
  · exact claim8_route_overlap_bounds.1 _ (by simp)
  · apply claim8_route_overlap_bounds.2
    intro p hp q hq
    simp only [List.mem_singleton] at hp hq
    subst hp
    subst hq
    have hcast : (((180 : ℚ) : ℝ)) = (180 : ℝ) := by norm_num
    simp only [Rat.cast_zero, hcast]
    rw [haversine_antipodal]
    intro hle
    nlinarith [Real.pi_gt_three]

/-! ## The pairing loop on a two-address run -/

theorem sqScaledDist_self (p : ℚ × ℚ) : sqScaledDist p p = 0 := by
  simp [sqScaledDist]

theorem sqScaledDist_comm (p q : ℚ × ℚ) : sqScaledDist p q = sqScaledDist q p := by
  simp only [sqScaledDist]
  ring

/-- On a run with exactly two addresses that are mutual neighbours and
two successful signatures, the pairing loop evaluates exactly the pair
(0, 1): the output is whatever the rule cascade produces for it. -/
theorem find_instabilities_pair (s1 s2 : RouteSignature) (c1 c2 : ℚ × ℚ)
    (bt : ℝ) (ot r : ℚ) (h1 : s1.success = true) (h2 : s2.success = true)
    (hr : 0 ≤ r) (hnear : sqScaledDist c1 c2 ≤ r ^ 2) :
    find_instabilities [s1, s2] [c1, c2] bt ot r =
      (evaluate_pair s1 s2 bt ot).toList := by
  have hr2 : (0 : ℚ) ≤ r ^ 2 := sq_nonneg r
  have hnear' : sqScaledDist c2 c1 ≤ r ^ 2 := by
    rw [sqScaledDist_comm]; exact hnear
  have hq0 : kdQuery [c1, c2] r 0 = [0, 1] := by
    simp [kdQuery, List.range_succ, List.filter, sqScaledDist_self, hr, hr2, hnear]
  have hq1 : kdQuery [c1, c2] r 1 = [0, 1] := by
    simp [kdQuery, List.range_succ, List.filter, sqScaledDist_self, hr, hr2, hnear']
  have hrange : List.range 2 = [0, 1] := rfl
  cases hE : evaluate_pair s1 s2 bt ot with
  | none =>
    simp [find_instabilities, findInstabilitiesPairs, hrange, hq0, hq1,
      outerStep, innerStep, h1, h2, hE]
  | some z =>
    simp [find_instabilities, findInstabilitiesPairs, hrange, hq0, hq1,
      outerStep, innerStep, h1, h2, hE]

/-- C4: the bearing difference is the wrapped absolute difference, and
for initial bearings in [0, 360) it lies in [0, 180]. -/
theorem claim4_bearing_difference_range :
    ∀ b1 b2 : ℝ,
      bearing_difference b1 b2 =
        (if 180 < |b1 - b2| then 360 - |b1 - b2| else |b1 - b2|) ∧
      (0 ≤ b1 → b1 < 360 → 0 ≤ b2 → b2 < 360 →
        0 ≤ bearing_difference b1 b2 ∧ bearing_difference b1 b2 ≤ 180) := by
  intro b1 b2
  refine ⟨rfl, fun hb1 hb1u hb2 hb2u => ?_⟩
  unfold bearing_difference
  have habs : |b1 - b2| < 360 := by
    rw [abs_lt]
    constructor <;> linarith
  by_cases h : 180 < |b1 - b2|
  · rw [if_pos h]
    constructor <;> linarith
  · rw [if_neg h]
    push_neg at h
    exact ⟨abs_nonneg _, h⟩

/-- C3 (amended): the evaluated distance ratio is
`max(dA, dB) / max(min(dA, dB), 1)`, and it is at least 1 whenever the
longer route distance is at least 1 meter; when both route distances are
below 1 m the flooring of the denominator can push the ratio below 1. -/
theorem claim3_route_distance_ratio_amended :
    ∀ d1 d2 : ℚ,
      route_distance_ratio d1 d2 = max d1 d2 / max (min d1 d2) 1 ∧
      (1 ≤ max d1 d2 → 1 ≤ route_distance_ratio d1 d2) := by
  intro d1 d2
  refine ⟨rfl, fun h => ?_⟩
  unfold route_distance_ratio
  have hden : (0 : ℚ) < max (min d1 d2) 1 :=
    lt_of_lt_of_le one_pos (le_max_right _ _)
  rw [one_le_div hden]
  exact max_le min_le_max h

/-- C3 counterexample: a fully evaluated (and emitted) pair of successful
signatures whose route distances are both 0: the recorded
`route_distance_ratio` is 0, which is not at least 1. -/
theorem claim3_ratio_below_one_cex :
    ∃ z, find_instabilities [testSig 0 0 true, testSig 0 0 false]
        [(0, 0), (0, 0)] 90 (1 / 2) 100 = [z] ∧
      z.route_distance_ratio = 0 ∧ ¬ 1 ≤ z.route_distance_ratio := by
  rw [find_instabilities_pair _ _ _ _ _ _ _ rfl rfl (by norm_num)
    (by simp [sqScaledDist])]
  have hbd : bearing_difference 0 0 = 0 := by
    norm_num [bearing_difference]
  have hratio : route_distance_ratio 0 0 = 0 := by
    norm_num [route_distance_ratio]
  norm_num [evaluate_pair, testSig, hbd, hratio]

/-! ## The rule cascade on concrete bearings -/

theorem pyRoundR_160 : pyRoundR 160 = 160 := by
  unfold pyRoundR
  norm_num

theorem pyFmtF0_160 : pyFmtF0 160 = "160" := by
  unfold pyFmtF0
  rw [pyRoundR_160]
  rfl

/-- C1: on a two-address run of successful signatures with initial
bearings 10 and 170 that are spatial neighbours, classification with the
default bearing threshold 90 yields exactly one zone, of severity
critical (160 between 150 and 180), whose reason text carries the
opposite-initial-direction message. -/
theorem claim1_opposite_direction_critical (s1 s2 : RouteSignature)
    (c1 c2 : ℚ × ℚ) (ot r : ℚ)
    (h1 : s1.success = true) (h2 : s2.success = true)
    (hb1 : s1.initial_bearing = 10) (hb2 : s2.initial_bearing = 170)
    (hr : 0 ≤ r) (hnear : sqScaledDist c1 c2 ≤ r ^ 2) :
    ∃ z, find_instabilities [s1, s2] [c1, c2] 90 ot r = [z] ∧
      z.severity = "critical" ∧
      containsSeq "Opposite initial direction".data z.reason.data = true := by
  rw [find_instabilities_pair s1 s2 c1 c2 90 ot r h1 h2 hr hnear]
  have hbd : bearing_difference s1.initial_bearing s2.initial_bearing = 160 := by
    rw [hb1, hb2]
    norm_num [bearing_difference]
  simp only [evaluate_pair, hbd, pyFmtF0_160]
  rw [if_pos (by norm_num : (90 : ℝ) ≤ 160),
    if_pos (by norm_num : (150 : ℝ) ≤ 160)]
  exact ⟨_, rfl, rfl, rfl⟩

/-- C1 witness: the theorem applied to concrete signatures 30 m apart in
the scaled plane, with the default 100 m neighbour radius. -/
theorem claim1_opposite_direction_witness :
    ∃ z, find_instabilities [testSig 10 0 false, testSig 170 0 false]
        [(0, 0), (0, 30 / 111000)] 90 (1 / 2) 100 = [z] ∧
      z.severity = "critical" ∧
      containsSeq "Opposite initial direction".data z.reason.data = true :=
  claim1_opposite_direction_critical _ _ _ _ _ _ rfl rfl rfl rfl
    (by norm_num) (by norm_num [sqScaledDist])

theorem pyFmtF1_three_halves : pyFmtF1 (3 / 2) = "1.5" := by
  have h15 : pyRoundQ (3 / 2 * 10) = 15 := by
    unfold pyRoundQ
    norm_num
  unfold pyFmtF1
  rw [h15]
  rfl

/-- C2 counterexample: the claim as stated holds for any pair with a
U-turn mismatch and ratio 1.5, but when the bearing difference also
reaches the bearing threshold, rule 1 fires first: here a pair with
exactly one U-turn, route distances 150 m and 100 m (ratio 1.5) and
bearings 10 and 170 produces a single zone whose reason is the
opposite-initial-direction message and never references the U-turn
mismatch. -/
theorem claim2_rule_order_cex :
    ∃ z, find_instabilities [testSig 10 150 true, testSig 170 100 false]
        [(0, 0), (0, 0)] 90 (1 / 2) 100 = [z] ∧
      route_distance_ratio (testSig 10 150 true).total_distance
        (testSig 170 100 false).total_distance = 3 / 2 ∧
      containsSeq "U-turn route mismatch".data z.reason.data = false ∧
      containsSeq "Opposite initial direction".data z.reason.data = true := by
  rw [find_instabilities_pair _ _ _ _ _ _ _ rfl rfl (by norm_num)
    (by norm_num [sqScaledDist])]
  have hbd : bearing_difference (testSig 10 150 true).initial_bearing
      (testSig 170 100 false).initial_bearing = 160 := by
    norm_num [testSig, bearing_difference]
  simp only [evaluate_pair, hbd, pyFmtF0_160]
  rw [if_pos (by norm_num : (90 : ℝ) ≤ 160),
    if_pos (by norm_num : (150 : ℝ) ≤ 160)]
  exact ⟨_, rfl, by norm_num [testSig, route_distance_ratio], rfl, rfl⟩

/-- C2 (amended): for a neighbouring pair of successful signatures where
exactly one has a U-turn and the distance ratio is 1.5, and whose bearing
difference stays below the bearing threshold (so that rule 1 does not
fire first), classification yields exactly one zone of severity critical
(1.5 above 1.3) whose reason text carries the U-turn mismatch
message. -/
theorem claim2_uturn_mismatch_critical (s1 s2 : RouteSignature)
    (c1 c2 : ℚ × ℚ) (ot r : ℚ)
    (h1 : s1.success = true) (h2 : s2.success = true)
    (hut : s1.has_uturn ≠ s2.has_uturn)
    (hratio : route_distance_ratio s1.total_distance s2.total_distance = 3 / 2)
    (hbd : bearing_difference s1.initial_bearing s2.initial_bearing < 90)
    (hr : 0 ≤ r) (hnear : sqScaledDist c1 c2 ≤ r ^ 2) :
    ∃ z, find_instabilities [s1, s2] [c1, c2] 90 ot r = [z] ∧
      z.severity = "critical" ∧
      containsSeq "U-turn route mismatch".data z.reason.data = true := by
  rw [find_instabilities_pair s1 s2 c1 c2 90 ot r h1 h2 hr hnear]
  simp only [evaluate_pair, hratio, pyFmtF1_three_halves]
  rw [if_neg (not_le.mpr hbd), if_pos hut,
    if_pos (by norm_num : (13 : ℚ) / 10 < 3 / 2)]
  exact ⟨_, rfl, rfl, rfl⟩

/-- C2 witness: the amended theorem applied to concrete signatures with
bearings 20 and 30, distances 150 m and 100 m, and exactly one
U-turn. -/
theorem claim2_uturn_mismatch_witness :
    ∃ z, find_instabilities [testSig 20 150 true, testSig 30 100 false]
        [(0, 0), (0, 30 / 111000)] 90 (1 / 2) 100 = [z] ∧
      z.severity = "critical" ∧
      containsSeq "U-turn route mismatch".data z.reason.data = true :=
  claim2_uturn_mismatch_critical _ _ _ _ _ _ rfl rfl (by decide)
    (by norm_num [testSig, route_distance_ratio])
    (by norm_num [testSig, bearing_difference])
    (by norm_num) (by norm_num [sqScaledDist])

/-! ## The final sort -/

theorem zoneLE_trans (a b c : InstabilityZone) (hab : zoneLE a b = true)
    (hbc : zoneLE b c = true) : zoneLE a c = true := by
  simp only [zoneLE, decide_eq_true_eq] at hab hbc ⊢
  rcases hab with h1 | ⟨h1, h1b⟩ <;> rcases hbc with h2 | ⟨h2, h2b⟩
  · exact Or.inl (h1.trans h2)
  · exact Or.inl (h2 ▸ h1)
  · exact Or.inl (h1 ▸ h2)
  · exact Or.inr ⟨h1.trans h2, h2b.trans h1b⟩

theorem zoneLE_total (a b : InstabilityZone) :
    (zoneLE a b || zoneLE b a) = true := by
  simp only [zoneLE, Bool.or_eq_true, decide_eq_true_eq]
  rcases lt_trichotomy (severity_order a.severity) (severity_order b.severity)
    with h | h | h
  · exact Or.inl (Or.inl h)
  · rcases le_total b.bearing_difference a.bearing_difference with hb | hb
    · exact Or.inl (Or.inr ⟨h, hb⟩)
    · exact Or.inr (Or.inr ⟨h.symm, hb⟩)
  · exact Or.inr (Or.inl h)

/-- C6: the sorted zone list handed to the exporter is ordered by
severity rank ascending (critical before high before medium) and by
bearing difference descending inside a tier: every adjacent pair either
strictly increases the rank or keeps the rank with a non-increasing
bearing difference. -/
theorem claim6_sorted_output :
    ∀ zs : List InstabilityZone,
      (sortInstabilities zs).Chain' (fun z1 z2 =>
        severity_order z1.severity < severity_order z2.severity ∨
        (severity_order z1.severity = severity_order z2.severity ∧
          z2.bearing_difference ≤ z1.bearing_difference)) := by
  intro zs
  have hp := List.sorted_mergeSort zoneLE_trans zoneLE_total zs
  unfold sortInstabilities
  refine (hp.imp ?_).chain'
  intro a b h
  simpa only [zoneLE, decide_eq_true_eq] using h

/-! ## Invariants of the pairing loop -/

theorem foldl_preserve {α β : Type _} (P : β → Prop) (f : β → α → β)
    (hf : ∀ b a, P b → P (f b a)) :
    ∀ (l : List α) (b : β), P b → P (l.foldl f b)
  | [], _, hb => hb
  | a :: t, b, hb => foldl_preserve P f hf t (f b a) (hf b a hb)

/-- A zone emitted by the rule cascade stores exactly the two compared
signatures. -/
theorem evaluate_pair_addresses (s1 s2 : RouteSignature) (bt : ℝ) (ot : ℚ)
    (z : InstabilityZone) (h : evaluate_pair s1 s2 bt ot = some z) :
    z.address1 = s1 ∧ z.address2 = s2 := by
  simp only [evaluate_pair] at h
  split_ifs at h <;>
    first
      | exact Option.noConfusion h
      | (obtain rfl := Option.some.inj h; exact ⟨rfl, rfl⟩)

theorem innerStep_inv (sigs : List RouteSignature) (bt : ℝ) (ot : ℚ) (i : ℕ)
    (hi : (sigs.getD i dfltSig).success = true)
    (st : List (ℕ × ℕ) × List (ℕ × ℕ × InstabilityZone)) (j : ℕ)
    (h : PairInv sigs st) : PairInv sigs (innerStep sigs bt ot i st j) := by
  unfold innerStep
  by_cases hji : j ≤ i
  · rw [if_pos hji]
    exact h
  · rw [if_neg hji]
    push_neg at hji
    have hminmax : (min i j, max i j) = (i, j) := by
      rw [min_eq_left hji.le, max_eq_right hji.le]
    by_cases hmem : (min i j, max i j) ∈ st.1
    · simp only [if_pos hmem]
      exact h
    · simp only [if_neg hmem]
      by_cases hs2 : (sigs.getD j dfltSig).success = false
      · simp only [if_pos hs2]
        exact ⟨h.1, h.2.1, fun t ht => List.mem_cons_of_mem _ (h.2.2 t ht)⟩
      · simp only [if_neg hs2]
        have hs2t : (sigs.getD j dfltSig).success = true := by
          cases hb : (sigs.getD j dfltSig).success
          · exact absurd hb hs2
          · rfl
        cases hE : evaluate_pair (sigs.getD i dfltSig) (sigs.getD j dfltSig)
            bt ot with
        | none =>
          exact ⟨h.1, h.2.1, fun t ht => List.mem_cons_of_mem _ (h.2.2 t ht)⟩
        | some z =>
          obtain ⟨hz1, hz2⟩ := evaluate_pair_addresses _ _ _ _ _ hE
          refine ⟨?_, ?_, ?_⟩
          · intro t ht
            rcases List.mem_append.mp ht with ht' | ht'
            · exact h.1 t ht'
            · obtain rfl := List.mem_singleton.mp ht'
              exact ⟨hji, hi, hs2t, hz1, hz2⟩
          · rw [List.map_append, List.nodup_append]
            refine ⟨h.2.1, List.nodup_singleton _, ?_⟩
            intro p hp hq
            obtain rfl := List.mem_singleton.mp hq
            obtain ⟨t, ht, hteq⟩ := List.mem_map.mp hp
            apply hmem
            rw [hminmax]
            have := h.2.2 t ht
            rwa [hteq] at this
          · intro t ht
            rcases List.mem_append.mp ht with ht' | ht'
            · exact List.mem_cons_of_mem _ (h.2.2 t ht')
            · obtain rfl := List.mem_singleton.mp ht'
              rw [hminmax]
              exact List.mem_cons_self _ _

theorem outerStep_inv (sigs : List RouteSignature) (query : ℕ → List ℕ)
    (bt : ℝ) (ot : ℚ)
    (st : List (ℕ × ℕ) × List (ℕ × ℕ × InstabilityZone)) (i : ℕ)
    (h : PairInv sigs st) :
    PairInv sigs (outerStep sigs query bt ot st i) := by
  unfold outerStep
  by_cases hs : (sigs.getD i dfltSig).success = false
  · rw [if_pos hs]
    exact h
  · rw [if_neg hs]
    have hi : (sigs.getD i dfltSig).success = true := by
      cases hb : (sigs.getD i dfltSig).success
      · exact absurd hb hs
      · rfl
    exact foldl_preserve _ _ (innerStep_inv sigs bt ot i hi) (query i) st h

theorem findInstabilitiesPairs_inv (sigs : List RouteSignature)
    (query : ℕ → List ℕ) (bt : ℝ) (ot : ℚ) :
    PairInv sigs ((List.range sigs.length).foldl
      (outerStep sigs query bt ot) ([], [])) := by
  refine foldl_preserve _ _ (outerStep_inv sigs query bt ot) _ _ ?_
  exact ⟨fun t ht => absurd ht (List.not_mem_nil t), List.nodup_nil,
    fun t ht => absurd ht (List.not_mem_nil t)⟩

/-- C7: for every signature list and every neighbour enumeration (so in
particular for every enumeration order of the KD-tree query results),
every emitted zone stores two successful signatures, and the unordered
index pairs of the emitted zones are pairwise distinct. -/
theorem claim7_pairing_success_and_distinct :
    ∀ (sigs : List RouteSignature) (query : ℕ → List ℕ) (bt : ℝ) (ot : ℚ),
      (∀ t ∈ findInstabilitiesPairs sigs query bt ot,
        t.2.2.address1.success = true ∧ t.2.2.address2.success = true) ∧
      ((findInstabilitiesPairs sigs query bt ot).map fun t =>
        (min t.1 t.2.1, max t.1 t.2.1)).Nodup := by
  intro sigs query bt ot
  have hinv := findInstabilitiesPairs_inv sigs query bt ot
  constructor
  · intro t ht
    obtain ⟨_, hs1, hs2, hz1, hz2⟩ := hinv.1 t ht
    rw [hz1, hz2]
    exact ⟨hs1, hs2⟩
  · have hmap : (findInstabilitiesPairs sigs query bt ot).map
        (fun t => (min t.1 t.2.1, max t.1 t.2.1)) =
        (findInstabilitiesPairs sigs query bt ot).map fun t => (t.1, t.2.1) := by
      refine List.map_congr_left fun t ht => ?_
      obtain ⟨hlt, _⟩ := hinv.1 t ht
      rw [min_eq_left hlt.le, max_eq_right hlt.le]
    rw [hmap]
    exact hinv.2.1

/-! ## Provider failure and the step walk -/

/-- Every failure mode of the provider call (no response, a non-200
status, or a reply without paths) makes `get_route_graphhopper` return
no route. -/
theorem get_route_graphhopper_fail (resp : Option GHResponse)
    (hfail : resp = none ∨
      ∃ r, resp = some r ∧ (r.status_code ≠ 200 ∨ r.paths = [])) :
    get_route_graphhopper resp = none := by
  rcases hfail with rfl | ⟨r, rfl, hbad⟩
  · rfl
  · simp only [get_route_graphhopper]
    by_cases h200 : r.status_code = 200
    · rcases hbad with hst | hp
      · exact absurd h200 hst
      · rw [if_pos h200, hp]
    · rw [if_neg h200]

/-- C9: when the provider call fails (network error, non-success status,
or malformed payload), `extract_route_signature` still returns a
signature, with `success = false` and a descriptive error; that
signature can never appear in a zone of the pairing loop, and in any
signature list containing it the count of successes stays strictly below
the total count, so it is counted without being paired. -/
theorem claim9_provider_failure_handling (address_id address : String)
    (location : ℚ × ℚ) (resp : Option GHResponse)
    (hfail : resp = none ∨
      ∃ r, resp = some r ∧ (r.status_code ≠ 200 ∨ r.paths = [])) :
    (extract_route_signature address_id address location resp).success = false ∧
    (extract_route_signature address_id address location resp).error =
      some "Failed to get route" ∧
    (∀ (sigs : List RouteSignature) (query : ℕ → List ℕ) (bt : ℝ) (ot : ℚ),
      ∀ t ∈ findInstabilitiesPairs sigs query bt ot,
        t.2.2.address1 ≠ extract_route_signature address_id address location resp ∧
        t.2.2.address2 ≠ extract_route_signature address_id address location resp) ∧
    (∀ sigs : List RouteSignature,
      extract_route_signature address_id address location resp ∈ sigs →
        (sigs.filter fun s => s.success).length < sigs.length) := by
  have hsig : extract_route_signature address_id address location resp =
      { address_id := address_id, address := address, location := location,
        initial_bearing := 0, first_road := "", route_roads := [],
        route_geometry := [], total_distance := 0, total_duration := 0,
        has_uturn := false, success := false,
        error := some "Failed to get route" } := by
    unfold extract_route_signature
    rw [get_route_graphhopper_fail resp hfail]
  have hsucc : (extract_route_signature address_id address location resp).success
      = false := by rw [hsig]
  refine ⟨hsucc, by rw [hsig], ?_, ?_⟩
  · intro sigs query bt ot t ht
    obtain ⟨_, hs1, hs2, hz1, hz2⟩ :=
      (findInstabilitiesPairs_inv sigs query bt ot).1 t ht
    constructor
    · intro heq
      rw [heq] at hz1
      rw [← hz1, hsucc] at hs1
      exact Bool.false_ne_true hs1
    · intro heq
      rw [heq] at hz2
      rw [← hz2, hsucc] at hs2
      exact Bool.false_ne_true hs2
  · intro sigs hmem
    refine List.length_filter_lt_length_iff_exists.mpr ⟨_, hmem, ?_⟩
    rw [hsucc]
    exact Bool.false_ne_true

/-- C9 witness: the theorem applied to a concrete address whose route
request raised (no response at all). -/
theorem claim9_provider_failure_witness :
    (extract_route_signature "a1" "10 Main St" (0, 0) none).success = false ∧
    (extract_route_signature "a1" "10 Main St" (0, 0) none).error =
      some "Failed to get route" ∧
    (∀ (sigs : List RouteSignature) (query : ℕ → List ℕ) (bt : ℝ) (ot : ℚ),
      ∀ t ∈ findInstabilitiesPairs sigs query bt ot,
        t.2.2.address1 ≠ extract_route_signature "a1" "10 Main St" (0, 0) none ∧
        t.2.2.address2 ≠ extract_route_signature "a1" "10 Main St" (0, 0) none) ∧
    (∀ sigs : List RouteSignature,
      extract_route_signature "a1" "10 Main St" (0, 0) none ∈ sigs →
        (sigs.filter fun s => s.success).length < sigs.length) :=
  claim9_provider_failure_handling "a1" "10 Main St" (0, 0) none (Or.inl rfl)

theorem headD_append (l : List String) (a : String) (hl : l ≠ []) :
    (l ++ [a]).headD "" = l.headD "" := by
  cases l with
  | nil => exact absurd rfl hl
  | cons x t => rfl

/-- One step of the walk preserves the road-list invariant. -/
theorem roadsStep_inv (st : String × List String × Bool) (step : Step)
    (h : RoadInv st) : RoadInv (roadsStep st step) := by
  obtain ⟨hne, hhead, hfirst⟩ := h
  simp only [roadsStep]
  by_cases hrn : stepRoadName step = ""
  · have hcondR : ¬(stepRoadName step ≠ "" ∧
        (st.2.1 = [] ∨ st.2.1.getLast? ≠ some (stepRoadName step))) :=
      fun hc => hc.1 hrn
    rw [if_neg hcondR]
    have hcondF : ¬(st.1 = "" ∧ stepRoadName step ≠ "" ∧ st.2.1.length ≤ 2) :=
      fun hc => hc.2.1 hrn
    rw [if_neg hcondF]
    exact ⟨hne, hhead, hfirst⟩
  · by_cases happ : st.2.1 = [] ∨ st.2.1.getLast? ≠ some (stepRoadName step)
    · have hcondR : stepRoadName step ≠ "" ∧
          (st.2.1 = [] ∨ st.2.1.getLast? ≠ some (stepRoadName step)) :=
        ⟨hrn, happ⟩
      rw [if_pos hcondR]
      by_cases hnil : st.2.1 = []
      · have h0 : st.1 = "" := by
          rw [hhead, hnil]
          rfl
        have hlen : (st.2.1 ++ [stepRoadName step]).length ≤ 2 := by
          rw [hnil]
          simp
        rw [if_pos ⟨h0, hrn, hlen⟩]
        refine ⟨?_, ?_, fun _ => hrn⟩
        · rw [hnil]
          simp only [List.nil_append, List.mem_singleton]
          exact fun hc => hrn hc.symm
        · rw [hnil]
          rfl
      · have hcondF : ¬(st.1 = "" ∧ stepRoadName step ≠ "" ∧
            (st.2.1 ++ [stepRoadName step]).length ≤ 2) :=
          fun hc => hfirst hnil hc.1
        rw [if_neg hcondF]
        refine ⟨?_, ?_, fun _ => hfirst hnil⟩
        · intro hc
          rcases List.mem_append.mp hc with hc' | hc'
          · exact hne hc'
          · exact hrn (List.mem_singleton.mp hc').symm
        · rw [headD_append _ _ hnil]
          exact hhead
    · have hcondR : ¬(stepRoadName step ≠ "" ∧
          (st.2.1 = [] ∨ st.2.1.getLast? ≠ some (stepRoadName step))) :=
        fun hc => happ hc.2
      rw [if_neg hcondR]
      push_neg at happ
      have hcondF : ¬(st.1 = "" ∧ stepRoadName step ≠ "" ∧
          st.2.1.length ≤ 2) :=
        fun hc => hfirst happ.1 hc.1
      rw [if_neg hcondF]
      exact ⟨hne, hhead, hfirst⟩

/-- C10: every signature the extractor produces collects no empty road
name, and its `first_road` is the head of `route_roads` (the empty
string when no road was collected). -/
theorem claim10_first_road_and_roads :
    ∀ (address_id address : String) (location : ℚ × ℚ)
      (resp : Option GHResponse),
      "" ∉ (extract_route_signature address_id address location resp).route_roads ∧
      (extract_route_signature address_id address location resp).first_road =
        (extract_route_signature address_id address location
          resp).route_roads.headD "" := by
  intro address_id address location resp
  unfold extract_route_signature
  cases hroute : get_route_graphhopper resp with
  | none =>
    exact ⟨List.not_mem_nil "", rfl⟩
  | some route =>
    have hinv : RoadInv (route.steps.foldl roadsStep ("", [], false)) := by
      refine foldl_preserve RoadInv roadsStep
        (fun b a hb => roadsStep_inv b a hb) route.steps ("", [], false) ?_
      exact ⟨List.not_mem_nil "", rfl, fun hc => absurd rfl hc⟩
    exact ⟨hinv.1, hinv.2.1⟩

end KVFD
